import Mathlib

/-!
Verification of the NetScan core (MalditoOriginal/NetScan):
a shallow embedding in Lean 4 of `src/ip_project/services/public_ip.py`
(service registry + public-IP detector) and
`src/ip_project/services/resolution.py` (DNS resolver with TTL cache),
together with theorems settling the specification claims.

Modelling conventions:
- the network is an explicit oracle function passed to each operation;
- Python exceptions that escape a function are modelled with `Except`;
- wall-clock time is an explicit `now : Int` argument;
- Python object identity (shared mutable `IPService` objects) is modelled
  with a heap `List IPService` addressed by allocation index, used for the
  claims about aliasing; the detection functions, which only read service
  fields, are modelled directly over dereferenced values.
-/

/-- Model of Python's `str.strip()`: drop leading and trailing whitespace.
Defined structurally over the character list so that it evaluates inside
the kernel. -/
def pyStrip (s : String) : String :=
  ⟨((s.data.dropWhile Char.isWhitespace).reverse.dropWhile Char.isWhitespace).reverse⟩

/-- Embedding of the `IPService` dataclass of `public_ip.py`:
name, url, per-call timeout (seconds) and enabled flag. -/
structure IPService where
  name : String
  url : String
  timeout : Int := 10
  enabled : Bool := true
deriving Repr, DecidableEq

namespace PublicIPDetector

/-- Embedding of `PublicIPDetector.DEFAULT_SERVICES` (class attribute):
the four built-in services, in source order. -/
def DEFAULT_SERVICES : List IPService :=
  [ { name := "ipify", url := "https://api.ipify.org", timeout := 10, enabled := true },
    { name := "ipinfo", url := "https://ipinfo.io/ip", timeout := 10, enabled := true },
    { name := "ifconfig", url := "https://ifconfig.me/ip", timeout := 10, enabled := true },
    { name := "icanhazip", url := "https://icanhazip.com", timeout := 10, enabled := true } ]

/-- Embedding of `PublicIPDetector._update_service`: scan `self._services`
for an entry with the same name; replace the first match in place
(`self._services[i] = service; return`), otherwise append at the end. -/
def _update_service (services : List IPService) (service : IPService) : List IPService :=
  match services with
  | [] => [service]
  | existing :: rest =>
    if existing.name == service.name then service :: rest
    else existing :: _update_service rest service

/-- The outcome of one network call of a probe: `some body` when
`urllib.request.urlopen` returns and `body` is the decoded response,
`none` when any of the caught exception classes is raised
(URLError, HTTPError, socket.timeout, or any other `Exception`; the
sync loop treats them all alike with `continue`). The oracle receives
the service and the effective timeout actually passed to `urlopen`. -/
def Net : Type := IPService → Int → Option String

/-- Embedding of `PublicIPDetector.detect_public_ip_sync`, faithful to the
source: the loop walks `self._services`, skips disabled entries, opens the
URL with timeout `min(service.timeout, timeout)` and reads the body.  On the
success path the source then executes `self._last_used_service = service_name`
where the local name `service_name` is never defined in this method, so a
`NameError` is raised before `return ip` is reached; the generic
`except Exception` handler catches it and the loop continues.  Hence every
probed service, successful or not, falls through to the next one.
Returns the function result paired with the names of the services probed,
in order. -/
def detect_public_ip_sync (net : Net) (services : List IPService)
    (timeout : Int) : Option String × List String :=
  match services with
  | [] =>
    -- loop exhausted: `return None`
    (none, [])
  | service :: rest =>
    if !service.enabled then detect_public_ip_sync net rest timeout
    else
      match net service (min service.timeout timeout) with
      | some _body =>
        -- `ip = response.read().decode('utf-8').strip()` succeeded, but
        -- `self._last_used_service = service_name` raises NameError
        -- (undefined local), caught by `except Exception`: continue.
        let (r, probed) := detect_public_ip_sync net rest timeout
        (r, service.name :: probed)
      | none =>
        -- probe failed (any caught exception): continue
        let (r, probed) := detect_public_ip_sync net rest timeout
        (r, service.name :: probed)

/-- The `detect_public_ip_sync` loop as the source intends it per its own
docstring ("Returns: Public IP address string or None if all services
fail"), i.e. without the `NameError` slip: first successful probe returns
its trimmed body.  Used to state what the claim expects at the failing
input; modelled from the spec sentence "return the first success; on
exhaustion, report no address found". -/
def detect_public_ip_sync_intended (net : Net) (services : List IPService)
    (timeout : Int) : Option String :=
  match services with
  | [] => none
  | service :: rest =>
    if !service.enabled then detect_public_ip_sync_intended net rest timeout
    else
      match net service (min service.timeout timeout) with
      | some body => some (pyStrip body)
      | none => detect_public_ip_sync_intended net rest timeout

/-- Embedding of the local helper `query_service` defined inside
`detect_public_ip`: on success returns `(service.name, some trimmedBody,
none)`, on any caught exception `(service.name, none, some errorText)`.
The error text is abstracted to `"error"`; only its presence matters.
Inside `detect_public_ip` the probe runs with `timeout=service.timeout`. -/
def query_service (net : Net) (service : IPService) :
    String × Option String × Option String :=
  match net service service.timeout with
  | some body => (service.name, some (pyStrip body), none)
  | none => (service.name, none, some "error")

/-- Result of one completed future in `detect_public_ip`'s `as_completed`
loop: `if ip:` — a non-empty trimmed body is a success and is returned at
once; otherwise the error is recorded and the loop continues. -/
def raceLoop (net : Net) : List IPService → Option String
  | [] => none
  | service :: rest =>
    let (_, ip, _) := query_service net service
    match ip with
    | some s => if s ≠ "" then some s else raceLoop net rest
    | none => raceLoop net rest

/-- Embedding of `PublicIPDetector.detect_public_ip`: filters the enabled
services; with none enabled it returns `None` immediately, before the
`ThreadPoolExecutor` block, so no worker is launched.  Otherwise one future
per enabled service is submitted and results are consumed in completion
order, modelled by the order parameter `sched` (an arbitrary reordering of
the enabled list supplied by the scheduler).  Returns the result paired
with the number of probe futures submitted. -/
def detect_public_ip (net : Net) (sched : List IPService → List IPService)
    (services : List IPService) : Option String × Nat :=
  let enabled_services := services.filter (fun s => s.enabled)
  if enabled_services.isEmpty then (none, 0)
  else (raceLoop net (sched enabled_services), enabled_services.length)

/-- Embedding of `PublicIPDetector.test_service`, faithful to the source:
the loop finds the first service with the given name and then evaluates
`query_service(service)` — but `query_service` only exists as a local
function inside `detect_public_ip`; at module scope the name is undefined,
so the call raises `NameError`, which nothing in `test_service` catches.
`Except.error` models the escaping exception.  When no service matches,
the loop falls through and `(False, None, "Service not found")` is
returned. -/
def test_service (services : List IPService) (name : String) :
    Except String (Bool × Option String × Option String) :=
  match services.find? (fun s => s.name == name) with
  | some _ => .error "NameError: name query_service is not defined"
  | none => .ok (false, none, some "Service not found")

end PublicIPDetector

/-!
Heap model of Python object identity for `IPService` dataclass instances.
A heap is the list of allocated objects, addressed by allocation index;
a registry's `self._services` is a list of references into the heap.
`list.copy()` copies the reference list but shares the referenced objects
(shallow copy), which is exactly what both `DEFAULT_SERVICES.copy()` in
`__init__` and `self._services.copy()` in `get_available_services` do.
`__init__` then always runs `_load_services_from_config`, and for a
default-constructed detector `ConfigManager.get("ip_services", {})` falls
back to the built-in `_defaults` of `config.py`, which supply entries for
ipify, ipinfo and ifconfig; each becomes a freshly allocated `IPService`
that `_update_service` swaps into the instance's reference list.
-/

namespace HeapModel

/-- A reference: index of the object in the heap (allocation order). -/
abbrev Ref := Nat

/-- The heap of allocated `IPService` objects. -/
abbrev Heap := List IPService

/-- In-place mutation of the object at reference `r`. -/
def heapSet (h : Heap) (r : Ref) (v : IPService) : Heap := h.set r v

/-- The heap as it stands after the module body runs: the four
`DEFAULT_SERVICES` objects are allocated at refs 0..3. -/
def defaultHeap : Heap := PublicIPDetector.DEFAULT_SERVICES

/-- The class attribute `PublicIPDetector.DEFAULT_SERVICES`: a list object
holding references to the four default services. -/
def DEFAULT_SERVICES_refs : List Ref := [0, 1, 2, 3]

/-- Allocation of a fresh object (a new `IPService(...)` call): the object
is appended to the heap and its reference is the previous heap length. -/
def alloc (h : Heap) (svc : IPService) : Heap × Ref := (h ++ [svc], h.length)

/-- `PublicIPDetector._update_service` over the heap model: the new
service object, already allocated at reference `r`, replaces the
reference at the first slot whose object's name matches
(`self._services[i] = service`), else its reference is appended. -/
def _update_service_refs (h : Heap) (services : List Ref) (name : String)
    (r : Ref) : List Ref :=
  match services with
  | [] => [r]
  | r0 :: rest =>
    match h[r0]? with
    | some existing =>
      if existing.name == name then r :: rest
      else r0 :: _update_service_refs h rest name r
    | none => r0 :: _update_service_refs h rest name r

/-- The `ip_services` mapping that `ConfigManager.get("ip_services", {})`
returns inside a default-constructed detector: `self._config` is empty,
so the lookup falls back to the built-in `_defaults` set by
`ConfigManager._set_defaults` (`config.py`), whose `ip_services` dict
holds — in insertion order — ipify, ipinfo and ifconfig, each with its
url, timeout 10 and enabled True. -/
def ip_services_config_defaults : List (String × String × Int × Bool) :=
  [ ("ipify", "https://api.ipify.org", 10, true),
    ("ipinfo", "https://ipinfo.io/ip", 10, true),
    ("ifconfig", "https://ifconfig.me/ip", 10, true) ]

/-- `PublicIPDetector._load_services_from_config` over the heap model: for
each configuration entry (a dict) a fresh `IPService` object is
constructed and `_update_service` is applied to it. -/
def _load_services_from_config (h : Heap) (services : List Ref) :
    List (String × String × Int × Bool) → Heap × List Ref
  | [] => (h, services)
  | (name, url, timeout, enabled) :: rest =>
    let hr := alloc h { name := name, url := url, timeout := timeout, enabled := enabled }
    _load_services_from_config hr.1 (_update_service_refs hr.1 services name hr.2) rest

/-- `PublicIPDetector.__init__` with `services=None`, over a heap:
`self._services = self.DEFAULT_SERVICES.copy()` — a fresh list holding
the same four class-level references — followed unconditionally by
`_load_services_from_config`, which replaces the ipify/ipinfo/ifconfig
slots with freshly allocated per-instance objects.  Only the icanhazip
reference (slot 3) remains the shared class-level object. -/
def initDetector (h : Heap) : Heap × List Ref :=
  _load_services_from_config h DEFAULT_SERVICES_refs ip_services_config_defaults

/-- Embedding of `PublicIPDetector.get_available_services` over the heap
model: `self._services.copy()` returns a new list object with the same
references (shallow copy). -/
def get_available_services (services : List Ref) : List Ref := services

/-- What the registry's own state looks like to subsequent registry
operations: each held reference dereferenced through the heap. -/
def observe (h : Heap) (services : List Ref) : List (Option IPService) :=
  services.map (fun r => h[r]?)

/-- Embedding of `PublicIPDetector._set_service_enabled` over the heap
model: the loop walks `self._services` and, at the first service whose
name matches, executes `service.enabled = enabled` — an in-place mutation
of the shared object — and returns True; otherwise False. -/
def _set_service_enabled (h : Heap) (services : List Ref) (name : String)
    (enabled : Bool) : Heap × Bool :=
  match services with
  | [] => (h, false)
  | r :: rest =>
    match h[r]? with
    | some service =>
      if service.name == name then
        (heapSet h r { service with enabled := enabled }, true)
      else _set_service_enabled h rest name enabled
    | none => _set_service_enabled h rest name enabled

/-- Embedding of `PublicIPDetector.disable_service`. -/
def disable_service (h : Heap) (services : List Ref) (name : String) :
    Heap × Bool :=
  _set_service_enabled h services name false

/-- Embedding of `PublicIPDetector.enable_service`. -/
def enable_service (h : Heap) (services : List Ref) (name : String) :
    Heap × Bool :=
  _set_service_enabled h services name true

/-- A caller-side mutation of one entry of the sequence returned by
`get_available_services`: setting the `enabled` field of the object behind
reference `r` (e.g. `detector.get_available_services()[0].enabled = False`). -/
def setEnabledOfEntry (h : Heap) (r : Ref) (b : Bool) : Heap :=
  match h[r]? with
  | some service => heapSet h r { service with enabled := b }
  | none => h

/-- The enabled flag of the first service with the given name, as observed
through a registry's references — how `enable_service`/`disable_service`
and the detection loops read the flag. -/
def observedEnabled (h : Heap) (services : List Ref) (name : String) :
    Option Bool :=
  match (services.filterMap (fun r => h[r]?)).find? (fun s => s.name == name) with
  | some service => some service.enabled
  | none => none

/-- Detector instance A: the first default-constructed instance
(constructed on the module-load heap). -/
def instA : Heap × List Ref := initDetector defaultHeap

/-- Detector instance B: a second default-constructed instance, built
after A; its heap extends A's, and its reference list shares only the
icanhazip object with A. -/
def instB : Heap × List Ref := initDetector instA.1

/-- The heap after instance A calls `disable_service("icanhazip")` with
both instances alive. -/
def heapDis : Heap := (disable_service instB.1 instA.2 "icanhazip").1

end HeapModel

/-!
Embedding of `src/ip_project/services/resolution.py`.
`socket.getaddrinfo` is an explicit oracle; `time()` is an explicit
`now : Int` argument; the `_cache` dict is an association list with
Python-dict semantics (assignment overwrites in place or appends, `del`
removes). The `_cache_lock` serializes access and has no sequential
content.
-/

/-- Python-dict assignment `d[k] = v`: overwrite the existing key in
place, otherwise append at the end. -/
def dictSet {α : Type} : List (String × α) → String → α → List (String × α)
  | [], k, v => [(k, v)]
  | (k', v') :: rest, k, v =>
    if k' == k then (k, v) :: rest else (k', v') :: dictSet rest k v

/-- Python-dict lookup `d.get(k)`. -/
def dictGet {α : Type} (d : List (String × α)) (k : String) : Option α :=
  match d.find? (fun p => p.1 == k) with
  | some p => some p.2
  | none => none

/-- Python-dict deletion `del d[k]`. -/
def dictErase {α : Type} : List (String × α) → String → List (String × α)
  | [], _ => []
  | (k', v') :: rest, k =>
    if k' == k then rest else (k', v') :: dictErase rest k

/-- One item of the sequence returned by `socket.getaddrinfo`.  The
resolver reads `item[0].name` (the name of the address-family enum member,
e.g. "AF_INET"), `item[3]` (the canonical name) and `item[4][0]` (the
address). -/
structure AddrInfo where
  familyName : String
  canonname : String
  address : String
deriving Repr, DecidableEq

/-- Embedding of the `DNSRecord` dataclass of `resolution.py`. -/
structure DNSRecord where
  hostname : String
  ip_address : String
  aliases : List String
  record_type : String
  timestamp : Int
deriving Repr, DecidableEq

/-- Embedding of `DNSRecord.is_expired`, with `time()` as the explicit
argument `now`: `(time() - self.timestamp) > ttl`. -/
def DNSRecord.is_expired (r : DNSRecord) (now : Int) (ttl : Int) : Bool :=
  now - r.timestamp > ttl

namespace DNSResolver

/-- The `_cache` dict. -/
abbrev Cache := List (String × DNSRecord)

/-- The mutable state of a `DNSResolver` instance (after `__init__` and
`_load_config` have fixed `enable_cache` and `default_ttl`). -/
structure State where
  enable_cache : Bool
  default_ttl : Int
  cache : Cache
deriving Repr, DecidableEq

/-- The forward-lookup primitive `socket.getaddrinfo(hostname, None,
family, SOCK_STREAM)`: `some items` on success, `none` when it raises
(`socket.gaierror` or anything else — `resolve`/`resolve_all` treat every
exception alike). -/
def Lookup : Type := String → Int → Option (List AddrInfo)

/-- Embedding of `DNSResolver._get_from_cache`: under the lock, fetch the
record; return it if present and unexpired; if present but expired, delete
it and report a miss; otherwise miss. -/
def _get_from_cache (st : State) (hostname : String) (now : Int) :
    Option DNSRecord × State :=
  if !st.enable_cache then (none, st)
  else
    match dictGet st.cache hostname with
    | some record =>
      if !record.is_expired now st.default_ttl then (some record, st)
      else (none, { st with cache := dictErase st.cache hostname })
    | none => (none, st)

/-- Embedding of `DNSResolver._store_in_cache`: under the lock, build a
`DNSRecord` with `record_type="A"` and `timestamp=time()` and assign it to
`self._cache[hostname]`. -/
def _store_in_cache (st : State) (hostname : String) (ip_address : String)
    (aliases : List String) (now : Int) : State :=
  if !st.enable_cache then st
  else
    { st with
      cache := dictSet st.cache hostname
        { hostname := hostname, ip_address := ip_address, aliases := aliases,
          record_type := "A", timestamp := now } }

/-- Embedding of `DNSResolver.resolve`: cache check first (guarded by
`self._enable_cache`); on a hit return the cached `ip_address`.  On a miss
call `getaddrinfo`, take `ip_addresses[0]` if any; when that first address
is truthy (non-empty) and the cache is enabled, store it keyed by the
hostname with aliases `[item[0].name for item in info]` — the
address-family enum names of the result items.  Any exception from the
lookup yields `None`. -/
def resolve (lookup : Lookup) (st : State) (hostname : String) (family : Int)
    (now : Int) : Option String × State :=
  let cachedSt :=
    if st.enable_cache then _get_from_cache st hostname now else (none, st)
  match cachedSt with
  | (some cached, st1) => (some cached.ip_address, st1)
  | (none, st1) =>
    match lookup hostname family with
    | none => (none, st1)
    | some info =>
      let ip_addresses := info.map (fun item => item.address)
      match ip_addresses.head? with
      | some ip_address =>
        let st2 :=
          if ip_address != "" && st1.enable_cache then
            _store_in_cache st1 hostname ip_address
              (info.map (fun item => item.familyName)) now
          else st1
        (some ip_address, st2)
      | none => (none, st1)

/-- The loop of `resolve_all` that builds `ip_addresses`: append each
item's address when not already present. -/
def dedupAddresses (info : List AddrInfo) (acc : List String) : List String :=
  match info with
  | [] => acc
  | item :: rest =>
    let ip := item.address
    if acc.contains ip then dedupAddresses rest acc
    else dedupAddresses rest (acc ++ [ip])

/-- Embedding of `DNSResolver.resolve_all`: same cache-then-lookup flow as
`resolve`, but a cache hit returns the single-element list
`[cached.ip_address]`, and on a lookup success the deduplicated address
list is returned while only `ip_addresses[0]` is stored in the cache
(with the same family-name aliases as `resolve`). -/
def resolve_all (lookup : Lookup) (st : State) (hostname : String)
    (family : Int) (now : Int) : List String × State :=
  let cachedSt :=
    if st.enable_cache then _get_from_cache st hostname now else (none, st)
  match cachedSt with
  | (some cached, st1) => ([cached.ip_address], st1)
  | (none, st1) =>
    match lookup hostname family with
    | none => ([], st1)
    | some info =>
      match dedupAddresses info [] with
      | [] => ([], st1)
      | ip0 :: restIps =>
        let st2 :=
          if st1.enable_cache then
            _store_in_cache st1 hostname ip0
              (info.map (fun item => item.familyName)) now
          else st1
        (ip0 :: restIps, st2)

/-- The loop of `batch_resolve`: one future per input hostname (duplicates
included) runs `resolve`; as each completes, `results[hostname] = ip`.
The futures are modelled as completing in submission order; the theorems
proved about the result (key set, per-key value) are exactly the
order-independent facts, since each per-hostname value is shown equal to
`resolve` at the initial state. -/
def batch_loop (lookup : Lookup) (family : Int) (now : Int) :
    List String → List (String × Option String) → State →
    List (String × Option String) × State
  | [], results, st => (results, st)
  | hostname :: rest, results, st =>
    let r := resolve lookup st hostname family now
    batch_loop lookup family now rest (dictSet results hostname r.1) r.2

/-- Embedding of `DNSResolver.batch_resolve`: submit `resolve` for every
input hostname and collect `results[hostname] = ip` as futures complete;
return the results dict. -/
def batch_resolve (lookup : Lookup) (st : State) (hostnames : List String)
    (family : Int) (now : Int) :
    List (String × Option String) × State :=
  batch_loop lookup family now hostnames [] st

/-- Embedding of `DNSResolver.clear_cache`. -/
def clear_cache (st : State) : State := { st with cache := [] }

end DNSResolver

/-!
Concrete fixtures used by the evaluation theorems and witnesses.
-/

/-- Service A of the spec scenario `[A(fails), B(succeeds), C(succeeds)]`. -/
def svcA : IPService := { name := "A", url := "http://a.example", timeout := 5, enabled := true }

/-- Service B of the spec scenario. -/
def svcB : IPService := { name := "B", url := "http://b.example", timeout := 5, enabled := true }

/-- Service C of the spec scenario. -/
def svcC : IPService := { name := "C", url := "http://c.example", timeout := 5, enabled := true }

/-- A disabled service. -/
def svcOff : IPService :=
  { name := "off", url := "http://off.example", timeout := 5, enabled := false }

/-- Network oracle for the scenario: A's probe raises, B's returns the body
"1.2.3.4\n", C's returns "5.6.7.8". -/
def netABC : PublicIPDetector.Net := fun s _t =>
  if s.name = "B" then some "1.2.3.4\n"
  else if s.name = "C" then some "5.6.7.8"
  else none

/-- Forward-lookup oracle: "example.test" resolves to two addresses whose
getaddrinfo items carry family names AF_INET / AF_INET6 and the canonical
name "alias.example.test"; every other hostname fails. -/
def lookupExample : DNSResolver.Lookup := fun h _f =>
  if h = "example.test" then
    some [ { familyName := "AF_INET", canonname := "alias.example.test",
             address := "1.2.3.4" },
           { familyName := "AF_INET6", canonname := "alias.example.test",
             address := "2001:db8::1" } ]
  else none

/-- A fresh resolver state: cache enabled, default TTL 300, empty cache. -/
def st0 : DNSResolver.State := { enable_cache := true, default_ttl := 300, cache := [] }

/-!
Claim C1 — sequential fallback.
-/

/-- C1: the claim states that `detect_public_ip_sync` returns the trimmed
body of the first succeeding enabled service — against `[A(fails),
B(succeeds), C(succeeds)]`, B's result.  The code does not: on the success
path it evaluates the undefined local `service_name`, the resulting
`NameError` is swallowed by the generic handler, and the loop continues,
so the method probes A, B and C and returns `None`.  This theorem
evaluates the embedded code at that failing input and contrasts it with
the loop as the method's own docstring describes it, which does return
B's trimmed body. -/
theorem C1_sequential_fallback_bug :
    PublicIPDetector.detect_public_ip_sync netABC [svcA, svcB, svcC] 10
        = (none, ["A", "B", "C"])
    ∧ PublicIPDetector.detect_public_ip_sync_intended netABC [svcA, svcB, svcC] 10
        = some "1.2.3.4" := by
  decide

/-!
Claim C2 — test_service.
-/

/-- C2: the claim states that `test_service(n)` probes the named service
and returns `(success, address, failure)` for registered names, and
`(False, None, "Service not found")` without raising for unknown names.
The unknown-name half holds, but for every registered name the call
`query_service(service)` refers to a name that only exists locally inside
`detect_public_ip`, so a `NameError` escapes instead of a triple being
returned. -/
theorem C2_test_service_raises_for_known_service :
    PublicIPDetector.test_service PublicIPDetector.DEFAULT_SERVICES "ipify"
        = Except.error "NameError: name query_service is not defined"
    ∧ PublicIPDetector.test_service PublicIPDetector.DEFAULT_SERVICES "no-such-service"
        = Except.ok (false, none, some "Service not found") :=
  ⟨rfl, rfl⟩

/-!
Claim C5 — empty / all-disabled registry.
-/

/-- Helper for C5: the sequential loop over a registry whose every entry is
disabled probes nothing and returns `None`. -/
theorem sync_all_disabled (net : PublicIPDetector.Net) (timeout : Int) :
    ∀ services : List IPService, (∀ s ∈ services, s.enabled = false) →
      PublicIPDetector.detect_public_ip_sync net services timeout = (none, []) := by
  intro services
  induction services with
  | nil => intro _; rfl
  | cons s rest ih =>
    intro hdis
    have hs : s.enabled = false := hdis s (by simp)
    simp only [PublicIPDetector.detect_public_ip_sync, hs, Bool.not_false, if_true]
    exact ih (fun x hx => hdis x (by simp [hx]))

/-- C5: for every registry that is empty or all-disabled, both detectors
return `None` without performing any probe: `detect_public_ip` filters the
enabled services, finds none, and returns before the executor block (zero
worker futures submitted), and `detect_public_ip_sync` skips every entry
(empty probed-services trace). -/
theorem C5_no_enabled_services_no_probe (net : PublicIPDetector.Net)
    (sched : List IPService → List IPService) (services : List IPService)
    (timeout : Int) (hdis : ∀ s ∈ services, s.enabled = false) :
    PublicIPDetector.detect_public_ip net sched services = (none, 0)
    ∧ PublicIPDetector.detect_public_ip_sync net services timeout = (none, []) := by
  refine ⟨?_, sync_all_disabled net timeout services hdis⟩
  have hfil : services.filter (fun s => s.enabled) = [] := by
    simp only [List.filter_eq_nil_iff]
    intro s hs
    simp [hdis s hs]
  simp [PublicIPDetector.detect_public_ip, hfil]

/-- Witness for C5 at a concrete all-disabled registry. -/
theorem C5_witness :
    PublicIPDetector.detect_public_ip netABC id [svcOff] = (none, 0)
    ∧ PublicIPDetector.detect_public_ip_sync netABC [svcOff] 10 = (none, []) :=
  C5_no_enabled_services_no_probe netABC id [svcOff] 10 (by decide)

/-!
Claim C6 — add/update replaces in place or appends.
-/

/-- `_update_service` in closed form: replace at the first index whose
name matches, else append. -/
theorem update_service_eq (services : List IPService) (service : IPService) :
    PublicIPDetector._update_service services service =
      if services.findIdx (fun e => e.name == service.name) < services.length
      then services.set (services.findIdx (fun e => e.name == service.name)) service
      else services ++ [service] := by
  induction services with
  | nil => simp [PublicIPDetector._update_service]
  | cons existing rest ih =>
    by_cases h : existing.name == service.name
    · simp [PublicIPDetector._update_service, h, List.findIdx_cons]
    · simp only [PublicIPDetector._update_service, h, if_false]
      rw [List.findIdx_cons]
      simp only [h, cond_false]
      rw [ih]
      by_cases hlt : rest.findIdx (fun e => e.name == service.name) < rest.length
      · simp [hlt, Nat.succ_lt_succ_iff, List.length_cons]
      · simp [hlt, Nat.succ_lt_succ_iff, List.length_cons]

/-- C6: if some entry of the registry has the new service's name,
`_update_service` replaces the entry at the first such position, keeping
the length and every other position unchanged (URL, timeout and enabled
flag of that position become the new service's, since the whole entry is
replaced); if no entry has that name, the service is appended at the
end. -/
theorem C6_update_service_spec (services : List IPService) (service : IPService) :
    ((∀ e ∈ services, e.name ≠ service.name) →
        PublicIPDetector._update_service services service = services ++ [service])
    ∧ (∀ i : Nat, services.findIdx (fun e => e.name == service.name) = i →
        i < services.length →
          (PublicIPDetector._update_service services service).length = services.length
          ∧ (PublicIPDetector._update_service services service)[i]? = some service
          ∧ ∀ j : Nat, j ≠ i →
              (PublicIPDetector._update_service services service)[j]? = services[j]?) := by
  constructor
  · intro habs
    have hidx : services.findIdx (fun e => e.name == service.name) = services.length := by
      induction services with
      | nil => rfl
      | cons a t ih =>
        rw [List.findIdx_cons]
        have ha : (a.name == service.name) = false := by
          simpa using habs a (by simp)
        simp [ha, ih (fun x hx hn => habs x (by simp [hx]) hn)]
    rw [update_service_eq, hidx]
    simp
  · intro i hi hlt
    rw [update_service_eq, hi, if_pos hlt]
    refine ⟨List.length_set services i service, ?_, ?_⟩
    · rw [List.getElem?_set_self']
      simp [List.getElem?_eq_getElem hlt]
    · intro j hj
      exact List.getElem?_set_ne (fun h => hj h.symm)

/-!
Association-list (Python dict) lemmas shared by the cache proofs.
-/

/-- Unfolding `dictGet` on a cons cell. -/
theorem dictGet_cons {α : Type} (p : String × α) (rest : List (String × α))
    (k : String) :
    dictGet (p :: rest) k = if p.1 == k then some p.2 else dictGet rest k := by
  by_cases h : p.1 == k
  · simp [dictGet, List.find?, h]
  · simp [dictGet, List.find?, h]

/-- Unfolding `dictSet` on a cons cell. -/
theorem dictSet_cons {α : Type} (p : String × α) (rest : List (String × α))
    (k : String) (v : α) :
    dictSet (p :: rest) k v =
      if p.1 == k then (k, v) :: rest else p :: dictSet rest k v := by
  obtain ⟨k', v'⟩ := p
  rfl

/-- Unfolding `dictErase` on a cons cell. -/
theorem dictErase_cons {α : Type} (p : String × α) (rest : List (String × α))
    (k : String) :
    dictErase (p :: rest) k = if p.1 == k then rest else p :: dictErase rest k := by
  obtain ⟨k', v'⟩ := p
  rfl

/-- `d[k] = v` makes `d.get(k)` return `v`. -/
theorem dictGet_dictSet_self {α : Type} (d : List (String × α)) (k : String) (v : α) :
    dictGet (dictSet d k v) k = some v := by
  induction d with
  | nil => simp [dictSet, dictGet_cons]
  | cons p rest ih =>
    by_cases h : p.1 == k
    · simp [dictSet_cons, h, dictGet_cons]
    · simp [dictSet_cons, h, dictGet_cons, ih]

/-- `d[k'] = v` leaves `d.get(k)` unchanged for `k ≠ k'`. -/
theorem dictGet_dictSet_ne {α : Type} (d : List (String × α)) (k' k : String) (v : α)
    (h : k' ≠ k) :
    dictGet (dictSet d k' v) k = dictGet d k := by
  induction d with
  | nil =>
    have h' : (k' == k) = false := by simp [h]
    simp [dictSet, dictGet_cons, h']
  | cons p rest ih =>
    by_cases hp : p.1 == k'
    · have hpk : (p.1 == k) = false := by
        have hp' : p.1 = k' := by simpa using hp
        simp [hp', h]
      have hk : (k' == k) = false := by simp [h]
      simp [dictSet_cons, hp, dictGet_cons, hpk, hk]
    · simp [dictSet_cons, hp, dictGet_cons, ih]

/-- A key absent from the key list is a `dictGet` miss. -/
theorem dictGet_eq_none_of_not_mem {α : Type} (d : List (String × α)) (k : String)
    (h : k ∉ d.map Prod.fst) : dictGet d k = none := by
  induction d with
  | nil => rfl
  | cons p rest ih =>
    have h1 : (p.1 == k) = false := by
      simp only [beq_eq_false_iff_ne, ne_eq]
      intro hc
      exact h (by simp [hc])
    have h2 : k ∉ rest.map Prod.fst := fun hc => h (by simp [hc])
    simp [dictGet_cons, h1, ih h2]

/-- `dictGet` hits exactly the keys present in the dict. -/
theorem dictGet_isSome_iff {α : Type} (d : List (String × α)) (k : String) :
    (dictGet d k).isSome = true ↔ k ∈ d.map Prod.fst := by
  induction d with
  | nil => simp [dictGet]
  | cons p rest ih =>
    by_cases h : p.1 = k
    · simp [dictGet_cons, h]
    · have h' : (p.1 == k) = false := by simp [h]
      have h'' : ¬ (k = p.1) := fun hc => h hc.symm
      simp [dictGet_cons, h', ih, h'']

/-- Deleting `k` from a dict with no duplicate keys makes `k` a miss. -/
theorem dictGet_dictErase_self {α : Type} (d : List (String × α)) (k : String)
    (hnd : (d.map Prod.fst).Nodup) : dictGet (dictErase d k) k = none := by
  induction d with
  | nil => rfl
  | cons p rest ih =>
    have hnd' : (rest.map Prod.fst).Nodup := by
      simpa using (List.nodup_cons.mp (by simpa using hnd)).2
    by_cases h : p.1 == k
    · have hk : p.1 = k := by simpa using h
      have hout : k ∉ rest.map Prod.fst := by
        rw [← hk]
        exact (List.nodup_cons.mp (by simpa using hnd)).1
      simp [dictErase_cons, h, dictGet_eq_none_of_not_mem rest k hout]
    · simp [dictErase_cons, h, dictGet_cons, ih hnd']

/-- Deleting `k'` leaves `dictGet` at `k ≠ k'` unchanged. -/
theorem dictGet_dictErase_ne {α : Type} (d : List (String × α)) (k' k : String)
    (h : k' ≠ k) : dictGet (dictErase d k') k = dictGet d k := by
  induction d with
  | nil => rfl
  | cons p rest ih =>
    by_cases hp : p.1 == k'
    · have hpk : (p.1 == k) = false := by
        have hp' : p.1 = k' := by simpa using hp
        simp [hp', h]
      simp [dictErase_cons, hp, dictGet_cons, hpk]
    · simp [dictErase_cons, hp, dictGet_cons, ih]

/-- Dict assignment preserves distinctness of the keys. -/
theorem nodup_keys_dictSet {α : Type} (d : List (String × α)) (k : String) (v : α)
    (hnd : (d.map Prod.fst).Nodup) : ((dictSet d k v).map Prod.fst).Nodup := by
  induction d with
  | nil => simp [dictSet]
  | cons p rest ih =>
    rw [List.map_cons] at hnd
    obtain ⟨hp, hrest⟩ := List.nodup_cons.mp hnd
    by_cases h : p.1 == k
    · have hk : p.1 = k := by simpa using h
      rw [dictSet_cons, if_pos h]
      simp only [List.map_cons, List.nodup_cons]
      exact ⟨by rw [← hk]; exact hp, hrest⟩
    · have hk : p.1 ≠ k := by simpa using h
      have hmem : p.1 ∉ (dictSet rest k v).map Prod.fst := by
        intro hc
        have hs := (dictGet_isSome_iff (dictSet rest k v) p.1).mpr hc
        rw [dictGet_dictSet_ne rest k p.1 v (fun he => hk he.symm)] at hs
        exact hp ((dictGet_isSome_iff rest p.1).mp hs)
      rw [dictSet_cons, if_neg (by simpa using h)]
      simp only [List.map_cons, List.nodup_cons]
      exact ⟨hmem, ih hrest⟩

/-- Dict deletion preserves distinctness of the keys. -/
theorem nodup_keys_dictErase {α : Type} (d : List (String × α)) (k : String)
    (hnd : (d.map Prod.fst).Nodup) : ((dictErase d k).map Prod.fst).Nodup := by
  induction d with
  | nil => simp [dictErase]
  | cons p rest ih =>
    rw [List.map_cons] at hnd
    obtain ⟨hp, hrest⟩ := List.nodup_cons.mp hnd
    by_cases h : p.1 == k
    · rw [dictErase_cons, if_pos h]
      exact hrest
    · have hmem : p.1 ∉ (dictErase rest k).map Prod.fst := by
        intro hc
        have hs := (dictGet_isSome_iff (dictErase rest k) p.1).mpr hc
        have hkne : k ≠ p.1 := by
          intro he
          exact (by simpa using h : ¬ (p.1 = k)) he.symm
        rw [dictGet_dictErase_ne rest k p.1 hkne] at hs
        exact hp ((dictGet_isSome_iff rest p.1).mp hs)
      rw [dictErase_cons, if_neg (by simpa using h)]
      simp only [List.map_cons, List.nodup_cons]
      exact ⟨hmem, ih hrest⟩

/-- Witness for C6: replacing "ipinfo" (position 1 of the defaults) in
place, and appending a fresh name. -/
theorem C6_witness :
    (PublicIPDetector._update_service PublicIPDetector.DEFAULT_SERVICES
        { name := "fresh", url := "http://f.example", timeout := 3, enabled := false }
      = PublicIPDetector.DEFAULT_SERVICES ++
        [{ name := "fresh", url := "http://f.example", timeout := 3, enabled := false }])
    ∧ ((PublicIPDetector._update_service PublicIPDetector.DEFAULT_SERVICES
          { name := "ipinfo", url := "http://new.example", timeout := 3, enabled := false }).length
        = PublicIPDetector.DEFAULT_SERVICES.length
      ∧ (PublicIPDetector._update_service PublicIPDetector.DEFAULT_SERVICES
          { name := "ipinfo", url := "http://new.example", timeout := 3, enabled := false })[1]?
        = some { name := "ipinfo", url := "http://new.example", timeout := 3, enabled := false }
      ∧ ∀ j : Nat, j ≠ 1 →
          (PublicIPDetector._update_service PublicIPDetector.DEFAULT_SERVICES
            { name := "ipinfo", url := "http://new.example", timeout := 3, enabled := false })[j]?
          = PublicIPDetector.DEFAULT_SERVICES[j]?) :=
  ⟨(C6_update_service_spec PublicIPDetector.DEFAULT_SERVICES
      { name := "fresh", url := "http://f.example", timeout := 3, enabled := false }).1
      (by decide),
   (C6_update_service_spec PublicIPDetector.DEFAULT_SERVICES
      { name := "ipinfo", url := "http://new.example", timeout := 3, enabled := false }).2
      1 (by decide) (by decide)⟩

/-!
Claim C10 — the default service list is shared across instances.
-/

/-- C10 counterexample: the claim says the changed enabled flag of any
default service name is observed by every other default-constructed
instance.  Concretely for `n = "ifconfig"`: instance A's
`disable_service("ifconfig")` succeeds and A itself observes
`enabled = False`, but the object it mutated is A's own config-fresh
ifconfig entry (the unconditional `_load_services_from_config` replaced
slots 0-2 with per-instance objects), so instance B still observes
`enabled = True` through `get_available_services` — not the `False` the
claim requires. -/
theorem C10_counterexample :
    (HeapModel.disable_service HeapModel.instB.1 HeapModel.instA.2 "ifconfig").2 = true
    ∧ HeapModel.observedEnabled
        (HeapModel.disable_service HeapModel.instB.1 HeapModel.instA.2 "ifconfig").1
        (HeapModel.get_available_services HeapModel.instA.2) "ifconfig" = some false
    ∧ HeapModel.observedEnabled
        (HeapModel.disable_service HeapModel.instB.1 HeapModel.instA.2 "ifconfig").1
        (HeapModel.get_available_services HeapModel.instB.2) "ifconfig" = some true
    ∧ HeapModel.observedEnabled
        (HeapModel.disable_service HeapModel.instB.1 HeapModel.instA.2 "ifconfig").1
        (HeapModel.get_available_services HeapModel.instB.2) "ifconfig" ≠ some false := by
  decide

/-- C10 (amended): `__init__(services=None)` takes
`DEFAULT_SERVICES.copy()` — a shallow copy sharing the class-level
objects — but then always runs `_load_services_from_config`, whose
built-in `ConfigManager` defaults cover ipify, ipinfo and ifconfig, so
those three slots are replaced by fresh per-instance objects and only the
icanhazip entry remains shared.  Hence cross-instance visibility of the
enabled flag holds exactly for "icanhazip": after instance A disables it,
the already-existing instance B, and an instance C constructed afterwards,
both observe `enabled = False` through `get_available_services`, and B's
re-enabling is visible to A; for each of ipify, ipinfo and ifconfig the
flag change stays private to the mutating instance. -/
theorem C10_icanhazip_shared :
    (HeapModel.disable_service HeapModel.instB.1 HeapModel.instA.2 "icanhazip").2 = true
    ∧ HeapModel.observedEnabled HeapModel.heapDis
        (HeapModel.get_available_services HeapModel.instB.2) "icanhazip" = some false
    ∧ HeapModel.observedEnabled (HeapModel.initDetector HeapModel.heapDis).1
        (HeapModel.get_available_services (HeapModel.initDetector HeapModel.heapDis).2)
        "icanhazip" = some false
    ∧ HeapModel.observedEnabled
        (HeapModel.enable_service HeapModel.heapDis HeapModel.instB.2 "icanhazip").1
        (HeapModel.get_available_services HeapModel.instA.2) "icanhazip" = some true
    ∧ HeapModel.observedEnabled
        (HeapModel.disable_service HeapModel.instB.1 HeapModel.instA.2 "ipify").1
        (HeapModel.get_available_services HeapModel.instB.2) "ipify" = some true
    ∧ HeapModel.observedEnabled
        (HeapModel.disable_service HeapModel.instB.1 HeapModel.instA.2 "ipinfo").1
        (HeapModel.get_available_services HeapModel.instB.2) "ipinfo" = some true
    ∧ HeapModel.observedEnabled
        (HeapModel.disable_service HeapModel.instB.1 HeapModel.instA.2 "ifconfig").1
        (HeapModel.get_available_services HeapModel.instB.2) "ifconfig" = some true := by
  decide

/-!
Claim C3 — get_available_services is only a shallow copy.
-/

/-- C3 counterexample: the claim says no caller mutation on the returned
sequence or its entries changes the registry.  Concretely, for a registry
holding the four class-level default service objects (every registry's
entries are such shared mutable objects — e.g. the icanhazip slot of any
default-constructed instance), taking the first entry of the sequence
returned by `get_available_services` and setting its `enabled` flag to
`False` changes the registry's own state as observed afterwards. -/
theorem C3_counterexample :
    HeapModel.observe
        (HeapModel.setEnabledOfEntry HeapModel.defaultHeap
          ((HeapModel.get_available_services HeapModel.DEFAULT_SERVICES_refs).headD 0) false)
        HeapModel.DEFAULT_SERVICES_refs
      ≠ HeapModel.observe HeapModel.defaultHeap HeapModel.DEFAULT_SERVICES_refs := by
  decide

/-- C3 (amended): `get_available_services` returns `self._services.copy()`
— a fresh list object, so list-level caller mutations cannot reach the
registry's own list, but one holding the very same entry references; and
mutating a field of any returned entry (here: its enabled flag, to a
different value) changes the registry's own state as observed by
subsequent registry operations. -/
theorem C3_shallow_copy (h : HeapModel.Heap) (reg : List HeapModel.Ref)
    (r : HeapModel.Ref) (service : IPService) (b : Bool)
    (hmem : r ∈ HeapModel.get_available_services reg)
    (hget : h[r]? = some service) (hne : service.enabled ≠ b) :
    HeapModel.get_available_services reg = reg
    ∧ HeapModel.observe (HeapModel.setEnabledOfEntry h r b) reg
        ≠ HeapModel.observe h reg := by
  refine ⟨rfl, ?_⟩
  intro heq
  obtain ⟨i, hi⟩ := List.mem_iff_getElem?.mp hmem
  have hi' : reg[i]? = some r := hi
  have hm : (HeapModel.setEnabledOfEntry h r b)[r]? = some { service with enabled := b } := by
    simp only [HeapModel.setEnabledOfEntry, hget, HeapModel.heapSet]
    rw [List.getElem?_set_self', hget]
    rfl
  have hpt : (HeapModel.setEnabledOfEntry h r b)[r]? = h[r]? := by
    have hcongr := congrArg (fun l => l[i]?) heq
    simp only [HeapModel.observe, List.getElem?_map, hi', Option.map_some] at hcongr
    exact Option.some.inj hcongr
  rw [hm, hget] at hpt
  have h3 : ({ service with enabled := b } : IPService) = service := Option.some.inj hpt
  exact hne (congrArg IPService.enabled h3).symm

/-- Witness for C3's amended theorem: a registry of the four class-level
default objects, its first returned entry ("ipify", enabled), flag set to
`False`. -/
theorem C3_shallow_copy_witness :
    HeapModel.get_available_services HeapModel.DEFAULT_SERVICES_refs
        = HeapModel.DEFAULT_SERVICES_refs
    ∧ HeapModel.observe (HeapModel.setEnabledOfEntry HeapModel.defaultHeap 0 false)
        HeapModel.DEFAULT_SERVICES_refs
      ≠ HeapModel.observe HeapModel.defaultHeap HeapModel.DEFAULT_SERVICES_refs :=
  C3_shallow_copy HeapModel.defaultHeap HeapModel.DEFAULT_SERVICES_refs 0
    { name := "ipify", url := "https://api.ipify.org", timeout := 10, enabled := true }
    false (by decide) (by decide) (by decide)

/-!
Claim C4 — resolve caches the family names, not the alias names.
-/

/-- C4: the claim says the cached record's aliases field holds the
alias/canonical names the primitive reported.  On a cache miss for
"example.test" whose lookup succeeds with canonical name
"alias.example.test" on both result items, `resolve` does return the first
address and does store a record keyed by the hostname — but its aliases
field is `[item[0].name for item in info] = ["AF_INET", "AF_INET6"]`, the
address-family enum names, not the canonical names the primitive
reported. -/
theorem C4_resolve_stores_family_names :
    (DNSResolver.resolve lookupExample st0 "example.test" 0 100).1 = some "1.2.3.4"
    ∧ dictGet (DNSResolver.resolve lookupExample st0 "example.test" 0 100).2.cache
        "example.test"
      = some { hostname := "example.test", ip_address := "1.2.3.4",
               aliases := ["AF_INET", "AF_INET6"], record_type := "A", timestamp := 100 }
    ∧ (lookupExample "example.test" 0).map
        (fun info => info.map (fun item => item.canonname))
      = some ["alias.example.test", "alias.example.test"]
    ∧ (["AF_INET", "AF_INET6"] : List String)
      ≠ ["alias.example.test", "alias.example.test"] := by
  decide

/-!
Claim C7 — expiry predicate and lazy eviction.
-/

/-- C7: `is_expired(ttl)` holds exactly when `now - timestamp > ttl`; and
a cache get for a key whose record is expired reports a miss and removes
the record, so an expired record is never returned and is purged on the
next access.  The `Nodup` hypothesis is the Python-dict invariant that
keys are unique (the association-list model of `self._cache`). -/
theorem C7_expiry_and_lazy_eviction :
    (∀ (r : DNSRecord) (now ttl : Int),
        r.is_expired now ttl = true ↔ now - r.timestamp > ttl)
    ∧ (∀ (st : DNSResolver.State) (k : String) (r : DNSRecord) (now : Int),
        (st.cache.map Prod.fst).Nodup →
        st.enable_cache = true →
        dictGet st.cache k = some r →
        r.is_expired now st.default_ttl = true →
          (DNSResolver._get_from_cache st k now).1 = none
          ∧ dictGet (DNSResolver._get_from_cache st k now).2.cache k = none) := by
  constructor
  · intro r now ttl
    simp [DNSRecord.is_expired]
  · intro st k r now hnd hen hget hexp
    have hstep : DNSResolver._get_from_cache st k now
        = (none, { st with cache := dictErase st.cache k }) := by
      simp [DNSResolver._get_from_cache, hen, hget, hexp]
    rw [hstep]
    exact ⟨rfl, dictGet_dictErase_self st.cache k hnd⟩

/-- A record created at time 0. -/
def recOld : DNSRecord :=
  { hostname := "k.example", ip_address := "9.9.9.9", aliases := [],
    record_type := "A", timestamp := 0 }

/-- A resolver state holding only `recOld`, with TTL 10. -/
def stOld : DNSResolver.State :=
  { enable_cache := true, default_ttl := 10, cache := [("k.example", recOld)] }

/-- Witness for C7: at time 100 the record of `stOld` is expired; the get
misses and purges it. -/
theorem C7_witness :
    (recOld.is_expired 100 10 = true ↔ 100 - recOld.timestamp > 10)
    ∧ ((DNSResolver._get_from_cache stOld "k.example" 100).1 = none
        ∧ dictGet (DNSResolver._get_from_cache stOld "k.example" 100).2.cache
            "k.example" = none) :=
  ⟨C7_expiry_and_lazy_eviction.1 recOld 100 10,
   C7_expiry_and_lazy_eviction.2 stOld "k.example" recOld 100
     (by decide) rfl (by decide) (by decide)⟩

/-!
Claim C8 — resolve_all: ordered dedup, first-address-only caching.
-/

/-- The `ip_addresses` loop of `resolve_all`, characterized: it extends
the accumulator by a subsequence of the incoming addresses, containing
exactly the addresses not yet seen, and preserves distinctness. -/
theorem dedupAddresses_spec (info : List AddrInfo) :
    ∀ acc : List String,
      ∃ t : List String,
        DNSResolver.dedupAddresses info acc = acc ++ t
        ∧ List.Sublist t (info.map (fun item => item.address))
        ∧ (∀ a : String,
            a ∈ acc ++ t ↔ a ∈ acc ∨ a ∈ info.map (fun item => item.address))
        ∧ (acc.Nodup → (acc ++ t).Nodup) := by
  induction info with
  | nil =>
    intro acc
    exact ⟨[], by simp [DNSResolver.dedupAddresses], by simp, by simp, by simp⟩
  | cons item rest ih =>
    intro acc
    by_cases h : acc.contains item.address
    · obtain ⟨t, ht1, ht2, ht3, ht4⟩ := ih acc
      have hmem : item.address ∈ acc := by simpa using h
      refine ⟨t, ?_, ?_, ?_, ht4⟩
      · have h' : DNSResolver.dedupAddresses (item :: rest) acc
            = DNSResolver.dedupAddresses rest acc := by
          simp [DNSResolver.dedupAddresses, hmem]
        rw [h', ht1]
      · simpa using ht2.cons item.address
      · intro a
        rw [ht3 a]
        simp only [List.map_cons, List.mem_cons]
        constructor
        · rintro (ha | ha)
          · exact Or.inl ha
          · exact Or.inr (Or.inr ha)
        · rintro (ha | ha | ha)
          · exact Or.inl ha
          · exact Or.inl (ha ▸ hmem)
          · exact Or.inr ha
    · obtain ⟨t, ht1, ht2, ht3, ht4⟩ := ih (acc ++ [item.address])
      have hnotmem : item.address ∉ acc := by simpa using h
      refine ⟨item.address :: t, ?_, ?_, ?_, ?_⟩
      · have h' : DNSResolver.dedupAddresses (item :: rest) acc
            = DNSResolver.dedupAddresses rest (acc ++ [item.address]) := by
          simp [DNSResolver.dedupAddresses, hnotmem]
        rw [h', ht1, List.append_assoc]
        rfl
      · simpa using ht2.cons₂ item.address
      · intro a
        have := ht3 a
        rw [List.append_assoc] at this
        simp only [List.singleton_append] at this
        rw [this]
        simp only [List.map_cons, List.mem_cons, List.mem_append, List.mem_singleton]
        tauto
      · intro hacc
        have hacc' : (acc ++ [item.address]).Nodup := by
          simp [List.nodup_append, hacc, hnotmem]
        have := ht4 hacc'
        rw [List.append_assoc] at this
        simpa using this

/-- C8: on a cache miss whose lookup succeeds with at least one result
item, `resolve_all` returns an ordered (subsequence of the reported
order), duplicate-free list containing exactly the reported addresses,
headed by the first reported address; it caches only that first address
under the hostname key; and a later `resolve_all` for the same hostname
within the TTL returns exactly the one cached address, even though the
original lookup found more. -/
theorem C8_resolve_all_spec (lookup : DNSResolver.Lookup) (st : DNSResolver.State)
    (hostname : String) (family now : Int) (item : AddrInfo)
    (restInfo : List AddrInfo)
    (hc : st.enable_cache = true)
    (hmiss : dictGet st.cache hostname = none)
    (hl : lookup hostname family = some (item :: restInfo)) :
    (DNSResolver.resolve_all lookup st hostname family now).1.Nodup
    ∧ List.Sublist (DNSResolver.resolve_all lookup st hostname family now).1
        ((item :: restInfo).map (fun i => i.address))
    ∧ (∀ a : String, a ∈ (DNSResolver.resolve_all lookup st hostname family now).1
        ↔ a ∈ (item :: restInfo).map (fun i => i.address))
    ∧ (DNSResolver.resolve_all lookup st hostname family now).1.head?
        = some item.address
    ∧ dictGet (DNSResolver.resolve_all lookup st hostname family now).2.cache hostname
        = some { hostname := hostname, ip_address := item.address,
                 aliases := (item :: restInfo).map (fun i => i.familyName),
                 record_type := "A", timestamp := now }
    ∧ ∀ now2 : Int, now2 - now ≤ st.default_ttl →
        (DNSResolver.resolve_all lookup
            (DNSResolver.resolve_all lookup st hostname family now).2
            hostname family now2).1
          = [item.address] := by
  obtain ⟨t, ht1, ht2, ht3, ht4⟩ := dedupAddresses_spec restInfo [item.address]
  have hded : DNSResolver.dedupAddresses (item :: restInfo) [] = item.address :: t := by
    have h0 : DNSResolver.dedupAddresses (item :: restInfo) []
        = DNSResolver.dedupAddresses restInfo [item.address] := by
      simp [DNSResolver.dedupAddresses]
    rw [h0, ht1]
    rfl
  have hrun : DNSResolver.resolve_all lookup st hostname family now
      = (item.address :: t,
         DNSResolver._store_in_cache st hostname item.address
           ((item :: restInfo).map (fun i => i.familyName)) now) := by
    simp [DNSResolver.resolve_all, DNSResolver._get_from_cache, hc, hmiss, hl, hded]
  have hstore : DNSResolver._store_in_cache st hostname item.address
      ((item :: restInfo).map (fun i => i.familyName)) now
      = { st with cache := dictSet st.cache hostname { hostname := hostname, ip_address := item.address, aliases := (item :: restInfo).map (fun i => i.familyName), record_type := "A", timestamp := now } } := by
    simp [DNSResolver._store_in_cache, hc]
  refine ⟨?_, ?_, ?_, ?_, ?_, ?_⟩
  · rw [hrun]
    have := ht4 (by simp)
    simpa using this
  · rw [hrun]
    simpa using ht2.cons₂ item.address
  · intro a
    rw [hrun]
    have := ht3 a
    simp only [List.singleton_append] at this
    simpa using this
  · rw [hrun]
    rfl
  · rw [hrun, hstore]
    exact dictGet_dictSet_self st.cache hostname _
  · intro now2 httl
    rw [hrun, hstore]
    have hexp : ∀ (h2 ip rt : String) (al : List String), DNSRecord.is_expired { hostname := h2, ip_address := ip, aliases := al, record_type := rt, timestamp := now } now2 st.default_ttl = false := by
      intro h2 ip rt al
      simp only [DNSRecord.is_expired]
      simp only [decide_eq_false_iff_not, not_lt]
      omega
    simp [DNSResolver.resolve_all, DNSResolver._get_from_cache, hc,
      dictGet_dictSet_self, hexp]

/-- Witness for C8 at the two-address lookup of "example.test": the first
call returns both addresses headed by "1.2.3.4"; a second call 100
seconds later (within the 300-second TTL) returns only the cached
["1.2.3.4"]. -/
theorem C8_witness :
    (DNSResolver.resolve_all lookupExample st0 "example.test" 0 100).1.head?
        = some "1.2.3.4"
    ∧ (DNSResolver.resolve_all lookupExample
        (DNSResolver.resolve_all lookupExample st0 "example.test" 0 100).2
        "example.test" 0 200).1
      = ["1.2.3.4"] :=
  ⟨(C8_resolve_all_spec lookupExample st0 "example.test" 0 100
      { familyName := "AF_INET", canonname := "alias.example.test",
        address := "1.2.3.4" }
      [{ familyName := "AF_INET6", canonname := "alias.example.test",
         address := "2001:db8::1" }]
      rfl rfl (by decide)).2.2.2.1,
   (C8_resolve_all_spec lookupExample st0 "example.test" 0 100
      { familyName := "AF_INET", canonname := "alias.example.test",
        address := "1.2.3.4" }
      [{ familyName := "AF_INET6", canonname := "alias.example.test",
         address := "2001:db8::1" }]
      rfl rfl (by decide)).2.2.2.2.2 200 (by decide)⟩

/-!
Claim C9 — batch_resolve.  Helper lemmas: how one `resolve` call runs,
what its result value depends on, and what it does to the state.
-/

/-- A `resolve` call whose cache consultation comes back as a miss with
post-get state `st1` proceeds to the lookup; the returned value is the
first reported address and the state is `st1`, updated by the store when
the first address is truthy and the cache is enabled. -/
theorem resolve_run_miss (lookup : DNSResolver.Lookup) (st st1 : DNSResolver.State)
    (h : String) (family now : Int)
    (hbranch : (if st.enable_cache then DNSResolver._get_from_cache st h now
        else (none, st)) = (none, st1)) :
    DNSResolver.resolve lookup st h family now =
      match lookup h family with
      | none => (none, st1)
      | some info =>
        match (info.map (fun item => item.address)).head? with
        | some ip =>
          (some ip,
           if ip != "" && st1.enable_cache then
             DNSResolver._store_in_cache st1 h ip
               (info.map (fun item => item.familyName)) now
           else st1)
        | none => (none, st1) := by
  simp only [DNSResolver.resolve]
  rw [hbranch]

/-- A `resolve` call whose cache consultation hits (cache enabled, entry
present and unexpired) returns the cached address and leaves the state
untouched. -/
theorem resolve_run_hit (lookup : DNSResolver.Lookup) (st : DNSResolver.State)
    (h : String) (family now : Int) (r : DNSRecord)
    (hen : st.enable_cache = true)
    (hget : dictGet st.cache h = some r)
    (hexp : r.is_expired now st.default_ttl = false) :
    DNSResolver.resolve lookup st h family now = (some r.ip_address, st) := by
  simp [DNSResolver.resolve, DNSResolver._get_from_cache, hen, hget, hexp]

/-- The value consulted from the cache, in closed form: it depends only on
the enabled flag, the entry at the key, and the TTL. -/
theorem get_from_cache_fst (st : DNSResolver.State) (h : String) (now : Int) :
    (DNSResolver._get_from_cache st h now).1 =
      (if st.enable_cache then
        match dictGet st.cache h with
        | some record =>
          if !record.is_expired now st.default_ttl then some record else none
        | none => none
      else none) := by
  by_cases hen : st.enable_cache
  · rcases hget : dictGet st.cache h with _ | r
    · simp [DNSResolver._get_from_cache, hen, hget]
    · by_cases hexp : r.is_expired now st.default_ttl
      · simp [DNSResolver._get_from_cache, hen, hget, hexp]
      · simp [DNSResolver._get_from_cache, hen, hget,
          (Bool.not_eq_true _).mp hexp]
  · simp [DNSResolver._get_from_cache, hen]

/-- The value returned by `resolve`, in closed form: the cached address if
the consultation hits, otherwise the first address the lookup reports. -/
theorem resolve_fst_eq (lookup : DNSResolver.Lookup) (st : DNSResolver.State)
    (h : String) (family now : Int) :
    (DNSResolver.resolve lookup st h family now).1 =
      (match (DNSResolver._get_from_cache st h now).1 with
      | some cached => some cached.ip_address
      | none =>
        match lookup h family with
        | none => none
        | some info => (info.map (fun item => item.address)).head?) := by
  by_cases hen : st.enable_cache
  · rcases hg : DNSResolver._get_from_cache st h now with ⟨c, st1⟩
    rcases c with _ | r
    · have hbranch : (if st.enable_cache then DNSResolver._get_from_cache st h now
          else (none, st)) = (none, st1) := by simp [hen, hg]
      rw [resolve_run_miss lookup st st1 h family now hbranch]
      rcases hlk : lookup h family with _ | info
      · simp [hlk]
      · rcases hhd : (info.map (fun item => item.address)).head? with _ | ip
        · simp [hlk, hhd]
        · simp [hlk, hhd]
    · simp [DNSResolver.resolve, hen, hg]
  · have hbranch : (if st.enable_cache then DNSResolver._get_from_cache st h now
        else (none, st)) = (none, st) := by simp [hen]
    have h1 : (DNSResolver._get_from_cache st h now).1 = none := by
      simp [DNSResolver._get_from_cache, hen]
    rw [resolve_run_miss lookup st st h family now hbranch, h1]
    rcases hlk : lookup h family with _ | info
    · simp [hlk]
    · rcases hhd : (info.map (fun item => item.address)).head? with _ | ip
      · simp [hlk, hhd]
      · simp [hlk, hhd]

/-- The value of `resolve` is a function of the oracle, the key, the
enabled flag, the TTL and the cache entry at the key alone. -/
theorem resolve_fst_congr (lookup : DNSResolver.Lookup)
    (st1 st2 : DNSResolver.State) (h : String) (family now : Int)
    (he : st1.enable_cache = st2.enable_cache)
    (ht : st1.default_ttl = st2.default_ttl)
    (hc : dictGet st1.cache h = dictGet st2.cache h) :
    (DNSResolver.resolve lookup st1 h family now).1
      = (DNSResolver.resolve lookup st2 h family now).1 := by
  rw [resolve_fst_eq, resolve_fst_eq, get_from_cache_fst, get_from_cache_fst,
    he, ht, hc]

/-- `_get_from_cache` either leaves the state alone or evicts exactly its
own key. -/
theorem get_from_cache_snd (st : DNSResolver.State) (h : String) (now : Int) :
    (DNSResolver._get_from_cache st h now).2 = st
    ∨ (DNSResolver._get_from_cache st h now).2
        = { st with cache := dictErase st.cache h } := by
  by_cases hen : st.enable_cache
  · rcases hget : dictGet st.cache h with _ | r
    · left
      simp [DNSResolver._get_from_cache, hen, hget]
    · by_cases hexp : r.is_expired now st.default_ttl
      · right
        simp [DNSResolver._get_from_cache, hen, hget, hexp]
      · left
        simp [DNSResolver._get_from_cache, hen, hget, (Bool.not_eq_true _).mp hexp]
  · left
    simp [DNSResolver._get_from_cache, hen]

/-- The state after `resolve` differs from the initial state at most at the
resolved key: unchanged, evicted, stored, or evicted-then-stored. -/
theorem resolve_state_cases (lookup : DNSResolver.Lookup) (st : DNSResolver.State)
    (h : String) (family now : Int) :
    (DNSResolver.resolve lookup st h family now).2 = st
    ∨ (DNSResolver.resolve lookup st h family now).2
        = { st with cache := dictErase st.cache h }
    ∨ (∃ rec : DNSRecord, (DNSResolver.resolve lookup st h family now).2
        = { st with cache := dictSet st.cache h rec })
    ∨ (∃ rec : DNSRecord, (DNSResolver.resolve lookup st h family now).2
        = { st with cache := dictSet (dictErase st.cache h) h rec }) := by
  by_cases hen : st.enable_cache
  · rcases hg : DNSResolver._get_from_cache st h now with ⟨c, st1⟩
    have hsnd : st1 = st ∨ st1 = { st with cache := dictErase st.cache h } := by
      have hx := get_from_cache_snd st h now
      rw [hg] at hx
      exact hx
    rcases c with _ | r
    · have hbranch : (if st.enable_cache then DNSResolver._get_from_cache st h now
          else (none, st)) = (none, st1) := by simp [hen, hg]
      rw [resolve_run_miss lookup st st1 h family now hbranch]
      rcases hlk : lookup h family with _ | info
      · rcases hsnd with h1 | h1
        · left; exact h1
        · right; left; exact h1
      · rcases hhd : (info.map (fun item => item.address)).head? with _ | ip
        · simp only [hhd]
          rcases hsnd with h1 | h1
          · left; exact h1
          · right; left; exact h1
        · simp only [hhd]
          rcases hsnd with h1 | h1
          · subst h1
            by_cases hip : ip = ""
            · left
              simp [hip]
            · right; right; left
              refine ⟨{ hostname := h, ip_address := ip, aliases := info.map (fun item => item.familyName), record_type := "A", timestamp := now }, ?_⟩
              have hipb : (ip != "") = true := by simp [hip]
              simp [hipb, hen, DNSResolver._store_in_cache]
          · subst h1
            by_cases hip : ip = ""
            · right; left
              simp [hip]
            · right; right; right
              refine ⟨{ hostname := h, ip_address := ip, aliases := info.map (fun item => item.familyName), record_type := "A", timestamp := now }, ?_⟩
              have hipb : (ip != "") = true := by simp [hip]
              simp [hipb, hen, DNSResolver._store_in_cache]
    · have hres : (DNSResolver.resolve lookup st h family now).2 = st1 := by
        simp [DNSResolver.resolve, hen, hg]
      rcases hsnd with h1 | h1
      · left
        rw [hres]
        exact h1
      · right; left
        rw [hres]
        exact h1
  · have hen' : st.enable_cache = false := by simpa using hen
    have hbranch : (if st.enable_cache then DNSResolver._get_from_cache st h now
        else (none, st)) = (none, st) := by simp [hen']
    rw [resolve_run_miss lookup st st h family now hbranch]
    rcases hlk : lookup h family with _ | info
    · left; rfl
    · rcases hhd : (info.map (fun item => item.address)).head? with _ | ip
      · simp [hhd]
      · simp only [hhd]
        left
        simp [hen']

/-- `resolve` never changes the enabled flag or the TTL. -/
theorem resolve_comp (lookup : DNSResolver.Lookup) (st : DNSResolver.State)
    (h : String) (family now : Int) :
    (DNSResolver.resolve lookup st h family now).2.enable_cache = st.enable_cache
    ∧ (DNSResolver.resolve lookup st h family now).2.default_ttl
        = st.default_ttl := by
  rcases resolve_state_cases lookup st h family now with h1 | h1 | ⟨rec, h1⟩ | ⟨rec, h1⟩
  · rw [h1]; exact ⟨rfl, rfl⟩
  · rw [h1]; exact ⟨rfl, rfl⟩
  · rw [h1]; exact ⟨rfl, rfl⟩
  · rw [h1]; exact ⟨rfl, rfl⟩

/-- `resolve` leaves every other cache key untouched. -/
theorem resolve_frame (lookup : DNSResolver.Lookup) (st : DNSResolver.State)
    (h : String) (family now : Int) (k : String) (hk : k ≠ h) :
    dictGet (DNSResolver.resolve lookup st h family now).2.cache k
      = dictGet st.cache k := by
  have hne : h ≠ k := fun he => hk he.symm
  rcases resolve_state_cases lookup st h family now with h1 | h1 | ⟨rec, h1⟩ | ⟨rec, h1⟩
  · rw [h1]
  · rw [h1]
    exact dictGet_dictErase_ne st.cache h k hne
  · rw [h1]
    exact dictGet_dictSet_ne st.cache h k rec hne
  · rw [h1]
    rw [dictGet_dictSet_ne (dictErase st.cache h) h k rec hne]
    exact dictGet_dictErase_ne st.cache h k hne

/-- `resolve` preserves the unique-keys invariant of the cache. -/
theorem resolve_nodup (lookup : DNSResolver.Lookup) (st : DNSResolver.State)
    (h : String) (family now : Int)
    (hnd : (st.cache.map Prod.fst).Nodup) :
    ((DNSResolver.resolve lookup st h family now).2.cache.map Prod.fst).Nodup := by
  rcases resolve_state_cases lookup st h family now with h1 | h1 | ⟨rec, h1⟩ | ⟨rec, h1⟩
  · rw [h1]; exact hnd
  · rw [h1]
    exact nodup_keys_dictErase st.cache h hnd
  · rw [h1]
    exact nodup_keys_dictSet st.cache h rec hnd
  · rw [h1]
    exact nodup_keys_dictSet (dictErase st.cache h) h rec
      (nodup_keys_dictErase st.cache h hnd)

/-- Stability under the miss path: when the first `resolve` consulted the
cache and missed (post-get state `st1`, also a miss at the key), running
`resolve` again on the resulting state yields the same value — the store
performed by the first call holds exactly the address the lookup
reports. -/
theorem resolve_fst_stable_miss (lookup : DNSResolver.Lookup)
    (st st1 : DNSResolver.State) (h : String) (family now : Int)
    (hen : st.enable_cache = true)
    (hen1 : st1.enable_cache = true)
    (hg : DNSResolver._get_from_cache st h now = (none, st1))
    (hmiss1 : dictGet st1.cache h = none) :
    (DNSResolver.resolve lookup (DNSResolver.resolve lookup st h family now).2
        h family now).1
      = (DNSResolver.resolve lookup st h family now).1 := by
  have hbranch : (if st.enable_cache then DNSResolver._get_from_cache st h now
      else (none, st)) = (none, st1) := by simp [hen, hg]
  have hrun := resolve_run_miss lookup st st1 h family now hbranch
  rcases hlk : lookup h family with _ | info
  · rw [hlk] at hrun
    have hrun' : DNSResolver.resolve lookup st h family now = (none, st1) := hrun
    have h2 : (DNSResolver.resolve lookup st h family now).2 = st1 := by rw [hrun']
    have h1v : (DNSResolver.resolve lookup st h family now).1 = none := by rw [hrun']
    rw [h2, h1v, resolve_fst_eq, get_from_cache_fst]
    simp [hen1, hmiss1, hlk]
  · rw [hlk] at hrun
    rcases hhd : (info.map (fun item => item.address)).head? with _ | ip
    · have hrun' : DNSResolver.resolve lookup st h family now = (none, st1) := by
        rw [hrun]
        simp [hhd]
      have h2 : (DNSResolver.resolve lookup st h family now).2 = st1 := by rw [hrun']
      have h1v : (DNSResolver.resolve lookup st h family now).1 = none := by rw [hrun']
      rw [h2, h1v, resolve_fst_eq, get_from_cache_fst]
      simp [hen1, hmiss1, hlk, hhd]
    · by_cases hip : ip = ""
      · subst hip
        have hrun' : DNSResolver.resolve lookup st h family now = (some "", st1) := by
          rw [hrun]
          simp [hhd]
        have h2 : (DNSResolver.resolve lookup st h family now).2 = st1 := by rw [hrun']
        have h1v : (DNSResolver.resolve lookup st h family now).1 = some "" := by
          rw [hrun']
        rw [h2, h1v, resolve_fst_eq, get_from_cache_fst]
        simp [hen1, hmiss1, hlk, hhd]
      · have hipb : (ip != "") = true := by simp [hip]
        have hrun' : DNSResolver.resolve lookup st h family now
            = (some ip, { st1 with cache := dictSet st1.cache h { hostname := h, ip_address := ip, aliases := info.map (fun item => item.familyName), record_type := "A", timestamp := now } }) := by
          rw [hrun]
          simp [hhd, hipb, hen1, DNSResolver._store_in_cache]
        have h2 : (DNSResolver.resolve lookup st h family now).2
            = { st1 with cache := dictSet st1.cache h { hostname := h, ip_address := ip, aliases := info.map (fun item => item.familyName), record_type := "A", timestamp := now } } := by
          rw [hrun']
        have h1v : (DNSResolver.resolve lookup st h family now).1 = some ip := by
          rw [hrun']
        rw [h2, h1v, resolve_fst_eq, get_from_cache_fst]
        by_cases hexp2 : DNSRecord.is_expired { hostname := h, ip_address := ip, aliases := info.map (fun item => item.familyName), record_type := "A", timestamp := now } now st1.default_ttl
        · simp [hen1, dictGet_dictSet_self, hexp2, hlk, hhd]
        · simp [hen1, dictGet_dictSet_self, (Bool.not_eq_true _).mp hexp2, hlk, hhd]

/-- Running `resolve` a second time from the state the first run produced
returns the same value (given the unique-keys cache invariant): the first
run either hit the cache and changed nothing, or populated the entry with
exactly the address it returned. -/
theorem resolve_fst_stable (lookup : DNSResolver.Lookup) (st : DNSResolver.State)
    (h : String) (family now : Int)
    (hnd : (st.cache.map Prod.fst).Nodup) :
    (DNSResolver.resolve lookup (DNSResolver.resolve lookup st h family now).2
        h family now).1
      = (DNSResolver.resolve lookup st h family now).1 := by
  by_cases hen : st.enable_cache
  · rcases hget : dictGet st.cache h with _ | r
    · have hg : DNSResolver._get_from_cache st h now = (none, st) := by
        simp [DNSResolver._get_from_cache, hen, hget]
      exact resolve_fst_stable_miss lookup st st h family now hen hen hg hget
    · by_cases hexp : r.is_expired now st.default_ttl
      · have hg : DNSResolver._get_from_cache st h now
            = (none, { st with cache := dictErase st.cache h }) := by
          simp [DNSResolver._get_from_cache, hen, hget, hexp]
        exact resolve_fst_stable_miss lookup st
          { st with cache := dictErase st.cache h } h family now hen hen hg
          (dictGet_dictErase_self st.cache h hnd)
      · have hexpf : r.is_expired now st.default_ttl = false :=
          (Bool.not_eq_true _).mp hexp
        have hres := resolve_run_hit lookup st h family now r hen hget hexpf
        have h2 : (DNSResolver.resolve lookup st h family now).2 = st := by rw [hres]
        rw [h2]
  · have hen' : st.enable_cache = false := by simpa using hen
    have he2 := (resolve_comp lookup st h family now).1
    rw [resolve_fst_eq, resolve_fst_eq, get_from_cache_fst, get_from_cache_fst,
      he2, hen']
    rfl

/-- The results dict built by the batch loop keeps its keys distinct. -/
theorem batch_loop_keys_nodup (lookup : DNSResolver.Lookup) (family now : Int) :
    ∀ (l : List String) (results : List (String × Option String))
      (st : DNSResolver.State),
      (results.map Prod.fst).Nodup →
      ((DNSResolver.batch_loop lookup family now l results st).1.map Prod.fst).Nodup := by
  intro l
  induction l with
  | nil =>
    intro results st hnd
    exact hnd
  | cons hd rest ih =>
    intro results st hnd
    have hstep : DNSResolver.batch_loop lookup family now (hd :: rest) results st
        = DNSResolver.batch_loop lookup family now rest
            (dictSet results hd (DNSResolver.resolve lookup st hd family now).1)
            (DNSResolver.resolve lookup st hd family now).2 := rfl
    rw [hstep]
    exact ih (dictSet results hd (DNSResolver.resolve lookup st hd family now).1)
      (DNSResolver.resolve lookup st hd family now).2
      (nodup_keys_dictSet results hd _ hnd)

/-- The entry the batch loop leaves for each input hostname: exactly the
value `resolve` gives that hostname at the reference state `st0`
(threading the state through the loop never changes any hostname's
value — other keys are untouched by frame, and a repeated hostname
re-resolves to the same value by stability). -/
theorem batch_loop_getValue (lookup : DNSResolver.Lookup) (family now : Int) :
    ∀ (l : List String) (results : List (String × Option String))
      (st st0 : DNSResolver.State),
      st.enable_cache = st0.enable_cache →
      st.default_ttl = st0.default_ttl →
      (st.cache.map Prod.fst).Nodup →
      (∀ h2 ∈ l, (DNSResolver.resolve lookup st h2 family now).1
          = (DNSResolver.resolve lookup st0 h2 family now).1) →
      ∀ k, dictGet (DNSResolver.batch_loop lookup family now l results st).1 k
        = if k ∈ l then some ((DNSResolver.resolve lookup st0 k family now).1)
          else dictGet results k := by
  intro l
  induction l with
  | nil =>
    intro results st st0 _ _ _ _ k
    simp [DNSResolver.batch_loop]
  | cons hd rest ih =>
    intro results st st0 he ht hnd hval k
    have hstep : DNSResolver.batch_loop lookup family now (hd :: rest) results st
        = DNSResolver.batch_loop lookup family now rest
            (dictSet results hd (DNSResolver.resolve lookup st hd family now).1)
            (DNSResolver.resolve lookup st hd family now).2 := rfl
    rw [hstep]
    have hcomp := resolve_comp lookup st hd family now
    have hval' : ∀ h2 ∈ rest,
        (DNSResolver.resolve lookup
            (DNSResolver.resolve lookup st hd family now).2 h2 family now).1
          = (DNSResolver.resolve lookup st0 h2 family now).1 := by
      intro h2 hmem
      by_cases hh : h2 = hd
      · subst hh
        rw [resolve_fst_stable lookup st h2 family now hnd]
        exact hval h2 (by simp)
      · have hfr := resolve_frame lookup st hd family now h2 hh
        have hcongr := resolve_fst_congr lookup
          (DNSResolver.resolve lookup st hd family now).2 st h2 family now
          hcomp.1 hcomp.2 hfr
        rw [hcongr]
        exact hval h2 (by simp [hmem])
    rw [ih (dictSet results hd (DNSResolver.resolve lookup st hd family now).1)
      (DNSResolver.resolve lookup st hd family now).2 st0
      (hcomp.1.trans he) (hcomp.2.trans ht)
      (resolve_nodup lookup st hd family now hnd) hval' k]
    by_cases hk1 : k ∈ rest
    · rw [if_pos hk1, if_pos (List.mem_cons_of_mem hd hk1)]
    · by_cases hk2 : k = hd
      · subst hk2
        rw [if_neg hk1, dictGet_dictSet_self,
          if_pos (by simp : k ∈ k :: rest), hval k (by simp)]
      · have hnotc : ¬ k ∈ hd :: rest := by simp [hk1, hk2]
        rw [if_neg hk1, if_neg hnotc,
          dictGet_dictSet_ne results hd k _ (fun he' => hk2 he'.symm)]

/-- C9: `batch_resolve` returns a dict whose key set is exactly the set of
distinct input hostnames (duplicates collapse to one entry), where each
key holds that hostname's own `resolve` result (computed from the
resolver's state at entry) — so one hostname's failure (`None` entry)
cannot affect any other hostname's entry.  The `Nodup` hypothesis is the
Python-dict unique-keys invariant of the cache model. -/
theorem C9_batch_resolve_spec (lookup : DNSResolver.Lookup)
    (st : DNSResolver.State) (hostnames : List String) (family now : Int)
    (hnd : (st.cache.map Prod.fst).Nodup) :
    ((DNSResolver.batch_resolve lookup st hostnames family now).1.map Prod.fst).Nodup
    ∧ (∀ k, k ∈ (DNSResolver.batch_resolve lookup st hostnames family now).1.map Prod.fst
        ↔ k ∈ hostnames)
    ∧ (∀ h2 ∈ hostnames,
        dictGet (DNSResolver.batch_resolve lookup st hostnames family now).1 h2
          = some ((DNSResolver.resolve lookup st h2 family now).1)) := by
  have hbr : DNSResolver.batch_resolve lookup st hostnames family now
      = DNSResolver.batch_loop lookup family now hostnames [] st := rfl
  have hget := batch_loop_getValue lookup family now hostnames [] st st rfl rfl hnd
    (fun _ _ => rfl)
  refine ⟨?_, ?_, ?_⟩
  · rw [hbr]
    exact batch_loop_keys_nodup lookup family now hostnames [] st (by simp)
  · intro k
    rw [← dictGet_isSome_iff, hbr, hget k]
    by_cases hk : k ∈ hostnames
    · simp [hk]
    · simp [hk, dictGet]
  · intro h2 hmem
    rw [hbr, hget h2, if_pos hmem]

/-- Witness for C9 at the input `["a", "a", "b"]`: duplicate "a" collapses
to a single entry and every key holds its own resolve result. -/
theorem C9_witness :
    ((DNSResolver.batch_resolve lookupExample st0 ["a", "a", "b"] 0 100).1.map Prod.fst).Nodup
    ∧ (∀ k, k ∈ (DNSResolver.batch_resolve lookupExample st0 ["a", "a", "b"] 0 100).1.map Prod.fst
        ↔ k ∈ ["a", "a", "b"])
    ∧ (∀ h2 ∈ (["a", "a", "b"] : List String),
        dictGet (DNSResolver.batch_resolve lookupExample st0 ["a", "a", "b"] 0 100).1 h2
          = some ((DNSResolver.resolve lookupExample st0 h2 0 100).1)) :=
  C9_batch_resolve_spec lookupExample st0 ["a", "a", "b"] 0 100 (by decide)
